import Mathlib

/-!
Verification of the echologhw voice-recorder firmware core against its
natural-language specification.

The definitions below are a shallow embedding of the C++ sources:

* `src/unnamed/part_001` (end-to-end integration firmware, "Test 10"):
  `performAdvancedVAD` (raw statistical detection + consecutive-detection
  debounce), `handleErrorState` (error cooldown / recovery gating) and
  `handleUploadingState` (batch upload drain with connectivity abort).
* `src/unnamed/part_000` ("Test 7" / sd_manager): `performVAD` sentinel
  filtering and the sample-append loop of `handleRecordingState`.
* `src/voice_detection.cpp`: `calculateRMS`, `updateNoiseFloor`,
  `calibrateVAD`, `initializeVAD`.
* `src/audio_recorder.cpp`: `createWAVHeader`, `startRecording`,
  `stopRecording` (placeholder header, header rewrite on finish).
* `src/unnamed/part_007` (wifi_sync.cpp): `performUpload` retry accounting.

Floating-point quantities of the source are modelled as exact rationals
(`ℚ`).  Comparisons of the form `sqrt e > t` with `t ≥ 0` and `e ≥ 0` are
modelled as `e > t^2`, which is equivalent over the reals; where a claim
depends only on such threshold comparisons or on a final clamp
(`MAX(x, floor)`), the property is independent of rounding, so the exact
model is faithful.  Machine integers (`uint32_t` byte counters, header
fields) are modelled as `Nat` reduced modulo `2^32` where the source uses
32-bit arithmetic.  Millisecond clocks (`millis()`) are modelled as `Nat`
timestamps; elapsed time `now - start` uses truncated subtraction, which
agrees with the source's unsigned arithmetic for monotone timestamps.
-/

namespace EchoLog

/-! ## Configuration constants (src/config.h and src/unnamed/part_001) -/

/-- `SAMPLE_RATE` from config.h / part_001. -/
def SAMPLE_RATE : Nat := 16000

/-- `CHANNELS` from config.h (mono). -/
def CHANNELS : Nat := 1

/-- `BITS_PER_SAMPLE` from config.h. -/
def BITS_PER_SAMPLE : Nat := 16

/-- `MAX_UPLOAD_RETRIES` from config.h line 12 (also part_001 line 80). -/
def MAX_UPLOAD_RETRIES : Nat := 3

/-- `UPLOAD_BATCH_SIZE` from part_001 line 81. -/
def UPLOAD_BATCH_SIZE : Nat := 5

/-- `VAD_SAMPLES` from part_000/part_001. -/
def VAD_SAMPLES : Nat := 512

/-- `VAD_TRIGGER_COUNT` from part_001 line 76: three consecutive positive
raw detections are required before the debounced detector fires. -/
def VAD_TRIGGER_COUNT : Nat := 3

/-- `RMS_THRESHOLD` (50.0) from part_000/part_001. -/
def RMS_THRESHOLD : ℚ := 50

/-- `VARIANCE_MIN` (5000.0) from part_000/part_001. -/
def VARIANCE_MIN : ℚ := 5000

/-- `VARIANCE_MAX` (100000.0) from part_000/part_001. -/
def VARIANCE_MAX : ℚ := 100000

/-- `VAD_NOISE_FLOOR` from config.h line 31. -/
def VAD_NOISE_FLOOR : ℚ := 100

/-- Error-state cooldown of part_001 `handleErrorState` (30000 ms). -/
def ERROR_COOLDOWN_MS : Nat := 30000

/-- Recovery ceiling of part_001 `handleErrorState`: recovery to INIT is
attempted only while `errorCount < 5`. -/
def ERROR_RECOVERY_LIMIT : Nat := 5

/-- Wrap-around modulus of the 32-bit unsigned quantities of the source. -/
def U32 : Nat := 4294967296

/-- Wrap-around modulus of 16-bit samples. -/
def U16 : Nat := 65536

/-! ## Samples and statistics

`performVAD` (part_000 lines 519-573) and `performAdvancedVAD` (part_001
lines 460-520) discard the sentinel values 0, -1, +1 produced by the PDM
microphone (`if (sample != 0 && sample != -1 && sample != 1)`). -/

/-- A raw sample is valid when it is none of the sentinel values 0, -1, +1. -/
def isValidSample (s : Int) : Bool := s != 0 && s != -1 && s != 1

/-- Sum of a sample buffer, as a rational (the source accumulates `float`). -/
def sumQ (l : List Int) : ℚ := (l.map (fun x : Int => (x : ℚ))).sum

/-- Sum of squares of a sample buffer (`sum += buf[i] * buf[i]`). -/
def sumSqQ (l : List Int) : ℚ := (l.map (fun x : Int => (x : ℚ) ^ 2)).sum

/-- Squared RMS of a buffer: `sum / samplesRead` before the source applies
`sqrt`.  The source computes `rms = sqrt(sum / samplesRead)` and only ever
compares it with a nonnegative threshold, so comparisons are modelled on the
square. -/
def rmsSqOf (l : List Int) : ℚ := sumSqQ l / l.length

/-- Mean (DC offset) of a buffer: `mean /= samplesRead`. -/
def meanOf (l : List Int) : ℚ := sumQ l / l.length

/-- Two-pass variance of a buffer exactly as in the source:
`variance += (buf[i] - mean)^2; variance /= samplesRead`. -/
def varianceOf (l : List Int) : ℚ :=
  (l.map (fun x : Int => ((x : ℚ) - meanOf l) ^ 2)).sum / l.length

/-- Raw (pre-debounce) VAD decision of part_000/part_001:
`rmsCheck = rms > RMS_THRESHOLD`, `varianceCheck = variance > VARIANCE_MIN
&& variance < VARIANCE_MAX`, detection = both.  The RMS comparison is
modelled on the squared values (see module comment). -/
def rawDetect (l : List Int) : Bool :=
  decide (RMS_THRESHOLD ^ 2 < rmsSqOf l) &&
    (decide (VARIANCE_MIN < varianceOf l) && decide (varianceOf l < VARIANCE_MAX))

/-- Modelled from the spec (section 4.1 steps 1-4): the raw detection with the
RMS computed over the DC-removed samples, `sqrt(mean((x - mean)^2))`,
compared against the same thresholds.  This definition follows the spec's
words and is compared with `rawDetect`, which follows the source. -/
def specRawDetect (l : List Int) : Bool :=
  let m := meanOf l
  let dc := l.map (fun x : Int => (x : ℚ) - m)
  let dcRmsSq := (dc.map (fun y : ℚ => y ^ 2)).sum / (l.length : ℚ)
  decide (RMS_THRESHOLD ^ 2 < dcRmsSq) &&
    (decide (VARIANCE_MIN < varianceOf l) && decide (varianceOf l < VARIANCE_MAX))

/-! ## Debounced detector (part_001 `performAdvancedVAD`, lines 460-520) -/

/-- Internal static state of `performAdvancedVAD`. -/
structure AdvVadState where
  consecutiveDetections : Nat
  vadTriggerCount : Nat
deriving DecidableEq

/-- The debounce block of `performAdvancedVAD` (part_001 lines 507-519):
on a positive raw detection the consecutive counter is incremented and the
detector fires (resetting the counter to 0) once it reaches
`VAD_TRIGGER_COUNT`; a negative raw detection resets the counter to 0. -/
def debounceStep (c : Nat) (raw : Bool) : Nat × Bool :=
  if raw then
    (if VAD_TRIGGER_COUNT ≤ c + 1 then (0, true) else (c + 1, false))
  else (0, false)

/-- The sample-collection loop of `performAdvancedVAD`/`performVAD`: valid
samples of the available raw input are kept, up to `VAD_SAMPLES` of them. -/
def collectSamples (input : List Int) : List Int :=
  (input.filter isValidSample).take VAD_SAMPLES

/-- `performAdvancedVAD` (part_001 lines 460-520) as a function of the raw
input available from the microphone for this call and the detector state.
An empty input models `!I2S.available()`.  Fewer than `VAD_SAMPLES / 2`
valid samples is inconclusive: the call reports `false` and leaves the
state untouched.  (This variant of the detector uses the fixed threshold
`RMS_THRESHOLD`; it has no adaptive noise floor, so the returned state is
the entire mutable VAD state of the function.) -/
def performAdvancedVAD (input : List Int) (s : AdvVadState) : Bool × AdvVadState :=
  if input = [] then (false, s)
  else
    let samples := collectSamples input
    if samples.length < VAD_SAMPLES / 2 then (false, s)
    else
      let step := debounceStep s.consecutiveDetections (rawDetect samples)
      (step.2, { consecutiveDetections := step.1,
                 vadTriggerCount :=
                   if step.2 then s.vadTriggerCount + 1 else s.vadTriggerCount })

/-- Counter of the debounced detector along a stream of raw per-frame
detections, starting from 0: `debCounterSeq raws n` is the counter value
before frame `n` is observed. -/
def debCounterSeq (raws : Nat → Bool) : Nat → Nat
  | 0 => 0
  | n + 1 => (debounceStep (debCounterSeq raws n) (raws n)).1

/-- Debounced output at frame `n` of a stream of raw detections. -/
def debOutSeq (raws : Nat → Bool) (n : Nat) : Bool :=
  (debounceStep (debCounterSeq raws n) (raws n)).2

/-- Number of consecutive `true` raw detections immediately before frame
`n` (the length of the trailing run of positives among frames `0..n-1`). -/
def trailSeq (raws : Nat → Bool) : Nat → Nat
  | 0 => 0
  | n + 1 => if raws n then trailSeq raws n + 1 else 0

/-- The spec's concrete raw sequence `[T, T, F, T, T, T]` (frames 0-5). -/
def exRawSeq : Nat → Bool := fun n => n != 2 && decide (n < 6)

/-- A concrete 256-sample frame of valid audio used to exercise the
detector: 128 samples at +100 followed by 128 at -100 (RMS 100,
variance 10000). -/
def voiceFrame : List Int := List.replicate 128 100 ++ List.replicate 128 (-100)

/-! ## Fixed-threshold VAD state of voice_detection.cpp -/

/-- Static state of `src/voice_detection.cpp` (noise floor, running average,
last audio level, cadence timestamp, update counter). -/
structure VadNState where
  noiseFloor : ℚ
  runningAverage : ℚ
  currentAudioLevel : ℚ
  lastNoiseUpdate : Nat
  sampleCount : Nat
deriving DecidableEq

/-- `initializeVAD` (voice_detection.cpp lines 13-24), before calibration:
resets the noise floor to `VAD_NOISE_FLOOR` and the averages to 0. -/
def initializeVAD (now : Nat) : VadNState :=
  { noiseFloor := VAD_NOISE_FLOOR
    runningAverage := 0
    currentAudioLevel := 0
    lastNoiseUpdate := now
    sampleCount := 0 }

/-- `updateNoiseFloor` (voice_detection.cpp lines 84-99): on a 100 ms
cadence, nudge the floor toward the current level only when the level is
below 1.5x the floor, then clamp with `MAX(noiseFloor, VAD_NOISE_FLOOR)`. -/
def updateNoiseFloor (now : Nat) (s : VadNState) : VadNState :=
  if now - s.lastNoiseUpdate < 100 then s
  else
    let ra := s.runningAverage * (95 / 100) + s.currentAudioLevel * (5 / 100)
    let nf0 :=
      if s.currentAudioLevel < s.noiseFloor * (3 / 2) then
        s.noiseFloor * (99 / 100) + s.currentAudioLevel * (1 / 100)
      else s.noiseFloor
    { s with
      runningAverage := ra
      noiseFloor := max nf0 VAD_NOISE_FLOOR
      lastNoiseUpdate := now
      sampleCount := s.sampleCount + 1 }

/-- `calibrateVAD` (voice_detection.cpp lines 105-137) as a function of the
RMS values of the frames successfully read during calibration: with at
least one sample the floor becomes `MAX(average * 1.2, VAD_NOISE_FLOOR)`;
with none the state is left unchanged (calibration failure fallback). -/
def calibrateVAD (rmsSamples : List ℚ) (s : VadNState) : VadNState :=
  if 0 < rmsSamples.length then
    { s with
      noiseFloor := max (rmsSamples.sum / rmsSamples.length * (12 / 10)) VAD_NOISE_FLOOR }
  else s

/-- Division with an explicit divisor-zero check, used to make the division
hazard of `calculateRMS` visible in the model. -/
def qdivChecked (a b : ℚ) : Option ℚ :=
  if b = 0 then none else some (a / b)

/-- `calculateRMS` (voice_detection.cpp lines 26-36).  The guard
`if (count <= 0) return 0.0;` runs before any arithmetic; otherwise the sum
of squares of the first `count` samples is divided by `count`.  The final
`sqrt` of the source is omitted: the function returns the radicand (the
squared RMS), which is 0 exactly when the RMS is 0, and the degenerate
branch returns before the division and the square root are reached. -/
def calculateRMS (samples : List Int) (count : Int) : Option ℚ :=
  if count ≤ 0 then some 0
  else qdivChecked (sumSqQ (samples.take count.toNat)) (count : ℚ)

/-! ## WAV container (src/audio_recorder.cpp) -/

/-- The `wav_header_t` struct of audio_recorder.h: the fixed 44-byte WAV
header.  Multi-byte fields are stored as `Nat` values already reduced to
their 32-bit / 16-bit ranges; the four-byte tags are kept as byte lists. -/
structure WavHeader where
  chunkID : List Nat
  chunkSize : Nat
  format : List Nat
  subchunk1ID : List Nat
  subchunk1Size : Nat
  audioFormat : Nat
  numChannels : Nat
  sampleRate : Nat
  byteRate : Nat
  blockAlign : Nat
  bitsPerSample : Nat
  subchunk2ID : List Nat
  subchunk2Size : Nat
deriving DecidableEq

/-- `createWAVHeader` (audio_recorder.cpp lines 49-69): builds the header
for a given data size.  `chunkSize = 36 + dataSize` is a `uint32_t`
computation, hence the reduction modulo `2^32`. -/
def createWAVHeader (dataSize : Nat) : WavHeader :=
  { chunkID := [82, 73, 70, 70]
    chunkSize := (36 + dataSize) % U32
    format := [87, 65, 86, 69]
    subchunk1ID := [102, 109, 116, 32]
    subchunk1Size := 16
    audioFormat := 1
    numChannels := CHANNELS
    sampleRate := SAMPLE_RATE
    byteRate := SAMPLE_RATE * CHANNELS * (BITS_PER_SAMPLE / 8)
    blockAlign := CHANNELS * (BITS_PER_SAMPLE / 8)
    bitsPerSample := BITS_PER_SAMPLE
    subchunk2ID := [100, 97, 116, 97]
    subchunk2Size := dataSize % U32 }

/-- Little-endian encoding of a 16-bit field. -/
def le16 (n : Nat) : List Nat := [n % 256, n / 256 % 256]

/-- Little-endian encoding of a 32-bit field. -/
def le32 (n : Nat) : List Nat :=
  [n % 256, n / 256 % 256, n / 65536 % 256, n / 16777216 % 256]

/-- Byte serialization of the header in the `wav_header_t` field order (the
struct is written to the file as raw bytes; it has no padding). -/
def headerBytes (h : WavHeader) : List Nat :=
  h.chunkID ++ le32 h.chunkSize ++ h.format ++
    h.subchunk1ID ++ le32 h.subchunk1Size ++ le16 h.audioFormat ++
    le16 h.numChannels ++ le32 h.sampleRate ++ le32 h.byteRate ++
    le16 h.blockAlign ++ le16 h.bitsPerSample ++
    h.subchunk2ID ++ le32 h.subchunk2Size

/-- Recording-session state of audio_recorder.cpp: the `recording` flag,
the `uint32_t bytesWritten` counter, and the file contents (header block
plus appended data bytes). -/
structure RecorderState where
  recording : Bool
  bytesWritten : Nat
  fileHeader : WavHeader
  fileData : List Nat
deriving DecidableEq

/-- The two data bytes written for one int16 sample
(`recordingFile.write((uint8_t*)&audioSample, 2)`), little-endian
two's-complement. -/
def sampleBytes (s : Int) : List Nat := le16 (s % (U16 : Int)).toNat

/-- `startRecording` (audio_recorder.cpp lines 71-104): fails when already
recording; otherwise writes the placeholder header `createWAVHeader 0` and
zeroes the byte counter. -/
def startRecording (s : RecorderState) : Option RecorderState :=
  if s.recording then none
  else some { recording := true
              bytesWritten := 0
              fileHeader := createWAVHeader 0
              fileData := [] }

/-- One append step of the recording loop (part_000 lines 323-330 /
part_001 lines 347-354): each valid (non-sentinel) sample of the frame is
written as two bytes and counted by the `uint32_t` byte counter of
audio_recorder.cpp (`bytesWritten += written`). -/
def appendFrame (frame : List Int) (s : RecorderState) : RecorderState :=
  let valid := frame.filter isValidSample
  { s with
    fileData := s.fileData ++ (valid.map sampleBytes).flatten
    bytesWritten := (s.bytesWritten + 2 * valid.length) % U32 }

/-- Appending a sequence of frames. -/
def appendFrames (frames : List (List Int)) (s : RecorderState) : RecorderState :=
  frames.foldl (fun s f => appendFrame f s) s

/-- `stopRecording` (audio_recorder.cpp lines 136-163): seeks back to the
start and rewrites the header with the true byte count `bytesWritten`. -/
def stopRecording (s : RecorderState) : Option RecorderState :=
  if !s.recording then none
  else some { s with
              recording := false
              fileHeader := createWAVHeader s.bytesWritten }

/-- Total number of valid samples in a sequence of frames. -/
def validTotal (frames : List (List Int)) : Nat :=
  (frames.map (fun f => (f.filter isValidSample).length)).sum

/-- A full `start -> append* -> finish` session from an idle recorder. -/
def recordSession (frames : List (List Int)) : Option RecorderState :=
  (startRecording { recording := false
                    bytesWritten := 0
                    fileHeader := createWAVHeader 0
                    fileData := [] }).bind
    (fun s => stopRecording (appendFrames frames s))

/-! ## Scheduler states (part_001) -/

/-- `system_state_t` of part_001. -/
inductive SysState where
  | INIT
  | LISTENING
  | RECORDING
  | UPLOADING
  | MAINTENANCE
  | ERROR
deriving DecidableEq

/-- Scheduler state relevant to the ERROR handler of part_001: the current
state, the static `errorStartTime` (0 meaning "not set", as in the source),
the global `errorCount`, and a flag recording that the "requires manual
intervention" report was emitted. -/
structure SchedState where
  sysState : SysState
  errorStartTime : Nat
  errorCount : Nat
  manualInterventionReported : Bool
deriving DecidableEq

/-- `handleErrorState` (part_001 lines 436-458): on first execution after
entering ERROR (`errorStartTime == 0`) the entry time is latched and the
global error counter incremented; once more than `ERROR_COOLDOWN_MS` has
elapsed, recovery to INIT is attempted, but only while
`errorCount < ERROR_RECOVERY_LIMIT` — otherwise the system reports that
manual intervention is required and stays in ERROR. -/
def handleErrorState (now : Nat) (s : SchedState) : SchedState :=
  let s1 := if s.errorStartTime = 0 then
              { s with errorStartTime := now, errorCount := s.errorCount + 1 }
            else s
  if ERROR_COOLDOWN_MS < now - s1.errorStartTime then
    let s2 := { s1 with errorStartTime := 0 }
    if s2.errorCount < ERROR_RECOVERY_LIMIT then
      { s2 with sysState := SysState.INIT }
    else
      { s2 with manualInterventionReported := true }
  else s1

/-- A sequence of scheduler ticks spent in the ERROR handler, at the given
`millis()` timestamps. -/
def runErrorTicks (times : List Nat) (s : SchedState) : SchedState :=
  times.foldl (fun s t => handleErrorState t s) s

/-! ## Upload drain of the scheduler (part_001 `handleUploadingState`) -/

/-- State relevant to `handleUploadingState` (part_001 lines 369-415):
the scheduler state, the static session bookkeeping, and the recordings
store split into pending and uploaded files (identifiers).  The file
enumeration (`findNextUnuploadedFile`) and the done-marking
(`markFileAsUploaded`, a rename into the uploaded directory, part_000
sd_manager) are modelled as the head of the FIFO pending list and a move
into the uploaded list. -/
structure UploadPhase where
  sysState : SysState
  uploadSessionActive : Bool
  filesUploaded : Nat
  pending : List Nat
  uploadedFiles : List Nat
  totalUploads : Nat
  errorCount : Nat
deriving DecidableEq

/-- One tick of `handleUploadingState` (part_001 lines 369-415), given the
current connectivity and the per-file upload outcome for this tick.
Connectivity loss aborts the session immediately: the handler returns to
LISTENING without touching the queue.  Otherwise one file is attempted;
success moves it to the uploaded list, failure only counts an error, and
the session ends after `UPLOAD_BATCH_SIZE` uploads or an empty queue. -/
def handleUploadingState (connected : Bool) (uploadOk : Nat → Bool)
    (s : UploadPhase) : UploadPhase :=
  let s := if !s.uploadSessionActive then
             { s with filesUploaded := 0, uploadSessionActive := true }
           else s
  if !connected then
    { s with uploadSessionActive := false, sysState := SysState.LISTENING }
  else
    match s.pending with
    | [] => { s with uploadSessionActive := false, sysState := SysState.LISTENING }
    | f :: rest =>
      let s :=
        if uploadOk f then
          { s with pending := rest
                   uploadedFiles := s.uploadedFiles ++ [f]
                   filesUploaded := s.filesUploaded + 1
                   totalUploads := s.totalUploads + 1 }
        else { s with errorCount := s.errorCount + 1 }
      if UPLOAD_BATCH_SIZE ≤ s.filesUploaded then
        { s with uploadSessionActive := false, sysState := SysState.LISTENING }
      else s

/-! ## Upload retry accounting of wifi_sync (part_007 `performUpload`) -/

/-- State of the wifi_sync upload path (part_007): the recordings pending
upload (FIFO, as enumerated by `getUnuploadedFiles`), the files already
moved to the uploaded directory, and the single static `uploadRetryCount`
shared across all files. -/
structure UploadState where
  pending : List Nat
  uploaded : List Nat
  retryCount : Nat
deriving DecidableEq

/-- The upload loop of `performUpload` (part_007 lines 88-110): each file of
the enumerated batch is attempted once; success marks it uploaded (moves it
out of pending); failure increments the shared retry counter and, once the
counter reaches `MAX_UPLOAD_RETRIES`, gives up on the rest of the batch.
Returns the final state and the `allUploaded` flag. -/
def uploadPass (ok : Nat → Bool) : List Nat → UploadState → Bool → UploadState × Bool
  | [], s, all => (s, all)
  | f :: fs, s, all =>
    if ok f then
      uploadPass ok fs
        { s with pending := s.pending.erase f, uploaded := s.uploaded ++ [f] } all
    else
      let s2 := { s with retryCount := s.retryCount + 1 }
      if MAX_UPLOAD_RETRIES ≤ s2.retryCount then (s2, false)
      else uploadPass ok fs s2 false

/-- `performUpload` (part_007 lines 75-119): enumerates up to 10 pending
files, runs the upload loop over them, and resets the shared retry counter
only when every attempted upload succeeded. -/
def performUpload (ok : Nat → Bool) (s : UploadState) : UploadState × Bool :=
  let r := uploadPass ok (s.pending.take 10) s true
  (if r.2 then { r.1 with retryCount := 0 } else r.1, r.2)

/-- Iterated `performUpload` calls in which every attempt fails. -/
def iterFailUpload : Nat → UploadState → UploadState
  | 0, s => s
  | n + 1, s => iterFailUpload n (performUpload (fun _ => false) s).1

/-! # Theorems -/

/-! ## Statistics lemmas -/

theorem sumQ_append (l1 l2 : List Int) : sumQ (l1 ++ l2) = sumQ l1 + sumQ l2 := by
  unfold sumQ
  rw [List.map_append, List.sum_append]

theorem sumSqQ_append (l1 l2 : List Int) : sumSqQ (l1 ++ l2) = sumSqQ l1 + sumSqQ l2 := by
  unfold sumSqQ
  rw [List.map_append, List.sum_append]

theorem sumQ_replicate (n : Nat) (a : Int) : sumQ (List.replicate n a) = n * (a : ℚ) := by
  unfold sumQ
  rw [List.map_replicate, List.sum_replicate, nsmul_eq_mul]

theorem sumSqQ_replicate (n : Nat) (a : Int) :
    sumSqQ (List.replicate n a) = n * (a : ℚ) ^ 2 := by
  unfold sumSqQ
  rw [List.map_replicate, List.sum_replicate, nsmul_eq_mul]

theorem sum_sq_sub (m : ℚ) (l : List Int) :
    (l.map (fun x : Int => ((x : ℚ) - m) ^ 2)).sum
      = sumSqQ l - 2 * m * sumQ l + l.length * m ^ 2 := by
  induction l with
  | nil => simp [sumSqQ, sumQ]
  | cons a t ih =>
    simp only [List.map_cons, List.sum_cons, sumSqQ, sumQ, List.length_cons] at ih ⊢
    rw [ih]
    push_cast
    ring

theorem varianceOf_eq_rmsSq_sub (l : List Int) (hl : l ≠ []) :
    varianceOf l = rmsSqOf l - meanOf l ^ 2 := by
  have hn : (l.length : ℚ) ≠ 0 := by
    exact_mod_cast Nat.cast_ne_zero.mpr (List.length_pos.mpr hl).ne'
  simp only [varianceOf, rmsSqOf]
  rw [sum_sq_sub (meanOf l) l]
  simp only [meanOf]
  field_simp
  ring

theorem varianceOf_le_rmsSq (l : List Int) (hl : l ≠ []) : varianceOf l ≤ rmsSqOf l := by
  rw [varianceOf_eq_rmsSq_sub l hl]
  have h := sq_nonneg (meanOf l)
  linarith

theorem specRawDetect_eq_var (l : List Int) :
    specRawDetect l =
      (decide (RMS_THRESHOLD ^ 2 < varianceOf l) &&
        (decide (VARIANCE_MIN < varianceOf l) && decide (varianceOf l < VARIANCE_MAX))) := by
  unfold specRawDetect varianceOf
  simp [List.map_map, Function.comp_def]

/-! ## Debounce lemmas -/

theorem debounceStep_fire_reset (c : Nat) (r : Bool) :
    (debounceStep c r).2 = true → (debounceStep c r).1 = 0 := by
  unfold debounceStep
  split
  · split <;> simp
  · simp

theorem debCounterSeq_eq_trail (raws : Nat → Bool) (n : Nat) :
    debCounterSeq raws n = trailSeq raws n % 3 := by
  induction n with
  | zero => rfl
  | succ n ih =>
    show (debounceStep (debCounterSeq raws n) (raws n)).1 = trailSeq raws (n + 1) % 3
    cases h : raws n with
    | false => simp [debounceStep, h, trailSeq]
    | true =>
      simp only [debounceStep, h, if_true, ih, VAD_TRIGGER_COUNT, trailSeq]
      split <;> simp <;> omega

theorem debOutSeq_eq (raws : Nat → Bool) (n : Nat) :
    debOutSeq raws n = (raws n && decide (trailSeq raws (n + 1) % 3 = 0)) := by
  unfold debOutSeq
  rw [debCounterSeq_eq_trail]
  cases h : raws n with
  | false => simp [debounceStep, h]
  | true =>
    have ht : trailSeq raws (n + 1) = trailSeq raws n + 1 := by simp [trailSeq, h]
    rw [ht]
    simp only [debounceStep, h, if_true, VAD_TRIGGER_COUNT, Bool.true_and]
    split
    · next hc =>
      have : (trailSeq raws n + 1) % 3 = 0 := by omega
      simp [this]
    · next hc =>
      have : (trailSeq raws n + 1) % 3 ≠ 0 := by omega
      simp [this]

theorem trailSeq_le (raws : Nat → Bool) (n : Nat) : trailSeq raws n ≤ n := by
  induction n with
  | zero => simp [trailSeq]
  | succ n ih =>
    unfold trailSeq
    split <;> omega

theorem trailSeq_pos (raws : Nat → Bool) (m : Nat) (h : 0 < trailSeq raws (m + 1)) :
    raws m = true ∧ trailSeq raws (m + 1) = trailSeq raws m + 1 := by
  cases hr : raws m with
  | false => rw [trailSeq, hr] at h; simp at h
  | true => rw [trailSeq, hr]; simp

theorem trailSeq_sub (raws : Nat → Bool) :
    ∀ d m, d ≤ trailSeq raws m → trailSeq raws (m - d) = trailSeq raws m - d := by
  intro d
  induction d with
  | zero => intro m _; simp
  | succ d ih =>
    intro m h
    cases m with
    | zero => rw [trailSeq] at h; omega
    | succ k =>
      cases hr : raws k with
      | false => rw [trailSeq, hr] at h; simp at h
      | true =>
        have hk : trailSeq raws (k + 1) = trailSeq raws k + 1 := by rw [trailSeq, hr]; simp
        have hd : d ≤ trailSeq raws k := by omega
        have hm : k + 1 - (d + 1) = k - d := by omega
        rw [hm, ih k hd, hk]
        omega

theorem debOutSeq_first_fire (raws : Nat → Bool) (n : Nat)
    (hprev : ∀ m, m < n → debOutSeq raws m = false) :
    debOutSeq raws n = true ↔ trailSeq raws (n + 1) = 3 := by
  rw [debOutSeq_eq]
  constructor
  · intro h
    rw [Bool.and_eq_true, decide_eq_true_eq] at h
    obtain ⟨hr, hmod⟩ := h
    have ht : trailSeq raws (n + 1) = trailSeq raws n + 1 := by rw [trailSeq, hr]; simp
    set t := trailSeq raws (n + 1) with htdef
    have htpos : 0 < t := by omega
    have ht3 : 3 ≤ t := by omega
    by_contra hne
    have ht6 : 6 ≤ t := by omega
    have htle : t ≤ n + 1 := trailSeq_le raws (n + 1)
    have hsub : trailSeq raws (n + 1 - 3) = t - 3 := trailSeq_sub raws 3 (n + 1) ht3
    have hidx : n + 1 - 3 = (n - 3) + 1 := by omega
    rw [hidx] at hsub
    have hpos3 : 0 < trailSeq raws ((n - 3) + 1) := by omega
    obtain ⟨hr3, _⟩ := trailSeq_pos raws (n - 3) hpos3
    have hout3 : debOutSeq raws (n - 3) = true := by
      rw [debOutSeq_eq, hr3, hsub]
      have : (t - 3) % 3 = 0 := by omega
      simp [this]
    have : debOutSeq raws (n - 3) = false := hprev (n - 3) (by omega)
    rw [this] at hout3
    exact absurd hout3 (by simp)
  · intro h3
    have hpos : 0 < trailSeq raws (n + 1) := by omega
    obtain ⟨hr, _⟩ := trailSeq_pos raws n hpos
    rw [hr, h3]
    simp

/-! ## Claim theorems -/

/-- C1: for every sequence of per-frame raw VAD detections, the debounced
detector of `performAdvancedVAD` fires exactly at the frames on which the
trailing run of consecutive raw positives reaches a (positive) multiple of
`VAD_TRIGGER_COUNT = 3`; in particular, when it has not fired before, it
fires for the first time exactly at the frame on which 3 consecutive raw
positives have accumulated.  Any raw negative detection resets the
consecutive-positive counter to 0, and the raw sequence `[T,T,F,T,T,T]`
yields exactly one `true`, at the 6th frame. -/
theorem C1_vad_debounce :
    (∀ (raws : Nat → Bool) (n : Nat),
        debOutSeq raws n
          = (raws n && decide (trailSeq raws (n + 1) % VAD_TRIGGER_COUNT = 0))) ∧
    (∀ (raws : Nat → Bool) (n : Nat), (∀ m, m < n → debOutSeq raws m = false) →
        (debOutSeq raws n = true ↔ trailSeq raws (n + 1) = VAD_TRIGGER_COUNT)) ∧
    (∀ c, debounceStep c false = (0, false)) ∧
    (∀ i, i < 6 → debOutSeq exRawSeq i = decide (i = 5)) := by
  refine ⟨?_, ?_, ?_, ?_⟩
  · intro raws n
    simpa only [VAD_TRIGGER_COUNT] using debOutSeq_eq raws n
  · intro raws n hprev
    simpa only [VAD_TRIGGER_COUNT] using debOutSeq_first_fire raws n hprev
  · intro c
    rfl
  · decide

/-- Witness for C1 on the spec's concrete sequence: the debounced output
fires at the 6th frame. -/
theorem C1_vad_debounce_witness : debOutSeq exRawSeq 5 = true := by
  have h := C1_vad_debounce.2.2.2 5 (by omega)
  simpa using h

/-- C9 (implicit): whenever a `performAdvancedVAD` call returns `true`, the
consecutive-positive-detection counter of the resulting state is 0, so a
subsequent trigger requires a fresh run of `VAD_TRIGGER_COUNT` consecutive
positive raw detections. -/
theorem C9_counter_reset_on_trigger :
    ∀ (input : List Int) (s : AdvVadState),
      (performAdvancedVAD input s).1 = true →
      (performAdvancedVAD input s).2.consecutiveDetections = 0 := by
  intro input s h
  by_cases h1 : input = []
  · simp [performAdvancedVAD, h1] at h
  · by_cases h2 : (collectSamples input).length < VAD_SAMPLES / 2
    · simp [performAdvancedVAD, h1, h2] at h
    · simp only [performAdvancedVAD, if_neg h1, if_neg h2] at h ⊢
      exact debounceStep_fire_reset _ _ h

theorem voiceFrame_length : voiceFrame.length = 256 := by
  rw [voiceFrame, List.length_append, List.length_replicate, List.length_replicate]

theorem voiceFrame_ne_nil : voiceFrame ≠ [] := by
  apply List.length_pos.mp
  rw [voiceFrame_length]
  norm_num

theorem voiceFrame_rmsSq : rmsSqOf voiceFrame = 10000 := by
  have h3 : sumSqQ voiceFrame = 2560000 := by
    rw [voiceFrame, sumSqQ_append, sumSqQ_replicate, sumSqQ_replicate]
    norm_num
  rw [rmsSqOf, h3, voiceFrame_length]
  norm_num

theorem voiceFrame_variance : varianceOf voiceFrame = 10000 := by
  have h2 : sumQ voiceFrame = 0 := by
    rw [voiceFrame, sumQ_append, sumQ_replicate, sumQ_replicate]
    norm_num
  have hm : meanOf voiceFrame = 0 := by
    rw [meanOf, h2]
    simp
  rw [varianceOf_eq_rmsSq_sub _ voiceFrame_ne_nil, voiceFrame_rmsSq, hm]
  norm_num

theorem performAdvancedVAD_voiceFrame :
    performAdvancedVAD voiceFrame { consecutiveDetections := 2, vadTriggerCount := 0 }
      = (true, { consecutiveDetections := 0, vadTriggerCount := 1 }) := by
  have hraw : rawDetect voiceFrame = true := by
    rw [rawDetect, voiceFrame_rmsSq, voiceFrame_variance]
    norm_num [RMS_THRESHOLD, VARIANCE_MIN, VARIANCE_MAX]
  have hfilter : voiceFrame.filter isValidSample = voiceFrame := by
    rw [voiceFrame, List.filter_append, List.filter_replicate, List.filter_replicate]
    norm_num [isValidSample]
  have hcoll : collectSamples voiceFrame = voiceFrame := by
    rw [collectSamples, hfilter]
    apply List.take_of_length_le
    rw [voiceFrame_length]
    norm_num [VAD_SAMPLES]
  have hlen2 : ¬ voiceFrame.length < VAD_SAMPLES / 2 := by
    rw [voiceFrame_length]
    norm_num [VAD_SAMPLES]
  simp only [performAdvancedVAD, if_neg voiceFrame_ne_nil, hcoll, if_neg hlen2, hraw]
  norm_num [debounceStep, VAD_TRIGGER_COUNT]

/-- Witness for C9: a 256-sample valid frame with RMS 100 and variance
10000, observed with the counter at 2, makes the detector fire, and the
counter in the resulting state is 0. -/
theorem C9_counter_reset_on_trigger_witness :
    (performAdvancedVAD voiceFrame { consecutiveDetections := 2, vadTriggerCount := 0 }).1
        = true ∧
    (performAdvancedVAD voiceFrame
        { consecutiveDetections := 2, vadTriggerCount := 0 }).2.consecutiveDetections
        = 0 := by
  have h1 : (performAdvancedVAD voiceFrame
      { consecutiveDetections := 2, vadTriggerCount := 0 }).1 = true := by
    rw [performAdvancedVAD_voiceFrame]
  exact ⟨h1, C9_counter_reset_on_trigger voiceFrame _ h1⟩

/-- C5: an input frame with fewer than half of its samples valid — in
particular a frame consisting entirely of the sentinel values 0, -1, +1 —
makes the VAD observe call return `detected = false` and leaves the whole
VAD state unchanged.  (In this detector the noise threshold is the constant
`RMS_THRESHOLD`; the returned state carries every mutable variable of the
detector, all of which are untouched.) -/
theorem C5_sentinel_inconclusive :
    (∀ (input : List Int) (s : AdvVadState),
        input.length ≤ VAD_SAMPLES →
        2 * (input.filter isValidSample).length < input.length →
        performAdvancedVAD input s = (false, s)) ∧
    (∀ (input : List Int) (s : AdvVadState),
        (∀ x ∈ input, isValidSample x = false) →
        performAdvancedVAD input s = (false, s)) := by
  constructor
  · intro input s hlen hhalf
    have hne : input ≠ [] := by
      intro h
      rw [h] at hhalf
      simp at hhalf
    have h512 : input.length ≤ 512 := hlen
    have hcl : (collectSamples input).length < VAD_SAMPLES / 2 := by
      rw [collectSamples, List.length_take]
      show min 512 (input.filter isValidSample).length < 256
      omega
    simp [performAdvancedVAD, if_neg hne, if_pos hcl]
  · intro input s hall
    by_cases hne : input = []
    · simp [performAdvancedVAD, hne]
    · have hf : input.filter isValidSample = [] := by
        rw [List.filter_eq_nil_iff]
        intro a ha
        simp [hall a ha]
      have hcl : (collectSamples input).length < VAD_SAMPLES / 2 := by
        rw [collectSamples, hf]
        simp [VAD_SAMPLES]
      simp [performAdvancedVAD, if_neg hne, if_pos hcl]

/-- Witness for C5: a frame of four sentinel samples reports `false` and
leaves the detector state (counter 1) unchanged. -/
theorem C5_sentinel_inconclusive_witness :
    performAdvancedVAD [0, -1, 1, 0] { consecutiveDetections := 1, vadTriggerCount := 0 }
      = (false, { consecutiveDetections := 1, vadTriggerCount := 0 }) :=
  C5_sentinel_inconclusive.1 [0, -1, 1, 0] _ (by norm_num [VAD_SAMPLES]) (by decide)

/-- C6: the raw (pre-debounce) detection of the source equals the spec's
formula — `(RMS > rmsThreshold) AND (varianceMin < variance < varianceMax)`
with the RMS taken over the DC-removed valid samples: because DC removal
can only lower the mean square (`E[x^2] = variance + mean^2`) and
`RMS_THRESHOLD^2 = 2500 < VARIANCE_MIN = 5000`, the two RMS conditions
agree whenever the variance window is satisfied.  Moreover the variance
upper bound rejects inputs that pass the RMS-only check. -/
theorem C6_raw_detection :
    (∀ l : List Int, l ≠ [] → rawDetect l = specRawDetect l) ∧
    (RMS_THRESHOLD ^ 2 < rmsSqOf [2000, -2000] ∧ rawDetect [2000, -2000] = false) := by
  have hrms2 : rmsSqOf [2000, -2000] = 4000000 := by
    rw [rmsSqOf]
    norm_num [sumSqQ]
  constructor
  · intro l hl
    rw [specRawDetect_eq_var, rawDetect]
    by_cases hv : VARIANCE_MIN < varianceOf l
    · have h0 : RMS_THRESHOLD ^ 2 < VARIANCE_MIN := by
        norm_num [RMS_THRESHOLD, VARIANCE_MIN]
      have h1 : RMS_THRESHOLD ^ 2 < varianceOf l := lt_trans h0 hv
      have h2 : RMS_THRESHOLD ^ 2 < rmsSqOf l :=
        lt_of_lt_of_le h1 (varianceOf_le_rmsSq l hl)
      simp [h1, h2]
    · simp [hv]
  · constructor
    · rw [hrms2]
      norm_num [RMS_THRESHOLD]
    · have hm : meanOf [2000, -2000] = 0 := by
        rw [meanOf]
        norm_num [sumQ]
      have hv : varianceOf [2000, -2000] = 4000000 := by
        rw [varianceOf_eq_rmsSq_sub _ (by simp), hm, hrms2]
        norm_num
      have hC : ¬ varianceOf [2000, -2000] < VARIANCE_MAX := by
        rw [hv]
        norm_num [VARIANCE_MAX]
      rw [rawDetect]
      simp [hC]

/-- Witness for C6 on a concrete nonempty frame. -/
theorem C6_raw_detection_witness : rawDetect [100, 200] = specRawDetect [100, 200] :=
  C6_raw_detection.1 [100, 200] (by simp)

/-- C8: the noise-floor estimate of voice_detection.cpp never falls below
`VAD_NOISE_FLOOR`: it holds after `initializeVAD`, is preserved by every
`updateNoiseFloor` call (which nudges the floor toward the current RMS only
when that RMS is below 1.5x the floor, and ends with the clamp
`MAX(noiseFloor, VAD_NOISE_FLOOR)`), and is preserved by `calibrateVAD`
(whose success branch is itself clamped by the same `MAX`). -/
theorem C8_noise_floor_min :
    (∀ now, VAD_NOISE_FLOOR ≤ (initializeVAD now).noiseFloor) ∧
    (∀ (now : Nat) (s : VadNState), VAD_NOISE_FLOOR ≤ s.noiseFloor →
        VAD_NOISE_FLOOR ≤ (updateNoiseFloor now s).noiseFloor) ∧
    (∀ (rs : List ℚ) (s : VadNState), VAD_NOISE_FLOOR ≤ s.noiseFloor →
        VAD_NOISE_FLOOR ≤ (calibrateVAD rs s).noiseFloor) := by
  refine ⟨?_, ?_, ?_⟩
  · intro now
    simp [initializeVAD]
  · intro now s hs
    unfold updateNoiseFloor
    split
    · exact hs
    · exact le_max_right _ _
  · intro rs s hs
    unfold calibrateVAD
    split
    · exact le_max_right _ _
    · exact hs

/-- Witness for C8: floor bound after an update on the freshly initialized
state, and after a calibration. -/
theorem C8_noise_floor_min_witness :
    VAD_NOISE_FLOOR ≤ (updateNoiseFloor 200 (initializeVAD 0)).noiseFloor ∧
    VAD_NOISE_FLOOR ≤ (calibrateVAD [20, 30] (initializeVAD 0)).noiseFloor := by
  constructor
  · exact C8_noise_floor_min.2.1 200 (initializeVAD 0) (C8_noise_floor_min.1 0)
  · exact C8_noise_floor_min.2.2 [20, 30] (initializeVAD 0) (C8_noise_floor_min.1 0)

/-- C10 (implicit): `calculateRMS` is total on degenerate input — for every
buffer and every `count ≤ 0` it returns exactly 0 from the initial guard,
before the division by `count` (made explicit by `qdivChecked`) or the
square root are reached; consequently no call can hit a division by zero. -/
theorem C10_calculateRMS_degenerate :
    (∀ (samples : List Int) (count : Int), count ≤ 0 →
        calculateRMS samples count = some 0) ∧
    (∀ (samples : List Int) (count : Int), (calculateRMS samples count).isSome = true) := by
  constructor
  · intro samples count hc
    simp [calculateRMS, hc]
  · intro samples count
    unfold calculateRMS
    split
    · rfl
    · next hc =>
      have hne : (count : ℚ) ≠ 0 := by
        exact_mod_cast show count ≠ 0 by omega
      simp [qdivChecked, hne]

/-- Witness for C10: an out-of-range count returns exactly 0. -/
theorem C10_calculateRMS_degenerate_witness :
    calculateRMS [5, 7] (-3) = some 0 :=
  C10_calculateRMS_degenerate.1 [5, 7] (-3) (by norm_num)

/-! ## Error-state lemmas (part_001 `handleErrorState`) -/

theorem handleErrorState_id (now : Nat) (s : SchedState)
    (h0 : ¬ s.errorStartTime = 0)
    (hle : now - s.errorStartTime ≤ ERROR_COOLDOWN_MS) :
    handleErrorState now s = s := by
  simp only [handleErrorState, h0, ite_false, if_neg (by omega :
    ¬ ERROR_COOLDOWN_MS < now - s.errorStartTime)]

theorem runErrorTicks_id (times : List Nat) (s : SchedState) (t0 : Nat)
    (h0 : s.errorStartTime = t0) (ht0 : 0 < t0)
    (hall : ∀ t ∈ times, t0 ≤ t ∧ t ≤ t0 + ERROR_COOLDOWN_MS) :
    runErrorTicks times s = s := by
  induction times with
  | nil => rfl
  | cons t ts ih =>
    have hmem := hall t (by simp)
    have hstep : handleErrorState t s = s :=
      handleErrorState_id t s (by omega) (by omega)
    show runErrorTicks ts (handleErrorState t s) = s
    rw [hstep]
    exact ih (fun u hu => hall u (by simp [hu]))

theorem handleErrorState_entry (t0 : Nat) (s : SchedState)
    (hs : s.errorStartTime = 0) :
    handleErrorState t0 s =
      { s with errorStartTime := t0, errorCount := s.errorCount + 1 } := by
  simp [handleErrorState, hs]

theorem handleErrorState_recover (tr : Nat) (s : SchedState)
    (h0 : ¬ s.errorStartTime = 0)
    (hcd : ERROR_COOLDOWN_MS < tr - s.errorStartTime)
    (hcnt : s.errorCount < ERROR_RECOVERY_LIMIT) :
    (handleErrorState tr s).sysState = SysState.INIT := by
  simp only [handleErrorState, h0, ite_false, if_pos hcd, if_pos hcnt]

theorem handleErrorState_stuck (now : Nat) (s : SchedState)
    (hs : s.sysState = SysState.ERROR)
    (hc : ERROR_RECOVERY_LIMIT ≤ s.errorCount) :
    (handleErrorState now s).sysState = SysState.ERROR ∧
    ERROR_RECOVERY_LIMIT ≤ (handleErrorState now s).errorCount := by
  simp only [handleErrorState]
  split_ifs <;> simp_all <;> omega

theorem runErrorTicks_stuck (times : List Nat) (s : SchedState)
    (hs : s.sysState = SysState.ERROR)
    (hc : ERROR_RECOVERY_LIMIT ≤ s.errorCount) :
    (runErrorTicks times s).sysState = SysState.ERROR := by
  induction times generalizing s with
  | nil => exact hs
  | cons t ts ih =>
    show (runErrorTicks ts (handleErrorState t s)).sysState = SysState.ERROR
    obtain ⟨h1, h2⟩ := handleErrorState_stuck t s hs hc
    exact ih _ h1 h2

/-- C4: entering ERROR at tick time `t0` (with the cooldown
`ERROR_COOLDOWN_MS = 30000`), the scheduler never transitions to INIT at
any tick at or before `t0 + C`; at the first tick strictly after `t0 + C`
it transitions to INIT provided the global error counter (including this
entry) is below `ERROR_RECOVERY_LIMIT = 5`; and once the counter has
reached the limit the handler reports that manual intervention is required
and the scheduler remains in ERROR at every subsequent tick. -/
theorem C4_error_cooldown :
    (∀ (t0 : Nat) (times : List Nat) (s0 : SchedState),
        s0.sysState = SysState.ERROR → s0.errorStartTime = 0 → 0 < t0 →
        (∀ t ∈ times, t0 ≤ t ∧ t ≤ t0 + ERROR_COOLDOWN_MS) →
        (runErrorTicks (t0 :: times) s0).sysState = SysState.ERROR) ∧
    (∀ (t0 : Nat) (times : List Nat) (tr : Nat) (s0 : SchedState),
        s0.sysState = SysState.ERROR → s0.errorStartTime = 0 → 0 < t0 →
        s0.errorCount + 1 < ERROR_RECOVERY_LIMIT →
        (∀ t ∈ times, t0 ≤ t ∧ t ≤ t0 + ERROR_COOLDOWN_MS) →
        t0 + ERROR_COOLDOWN_MS < tr →
        (handleErrorState tr (runErrorTicks (t0 :: times) s0)).sysState
          = SysState.INIT) ∧
    (∀ (times : List Nat) (s : SchedState),
        s.sysState = SysState.ERROR → ERROR_RECOVERY_LIMIT ≤ s.errorCount →
        (runErrorTicks times s).sysState = SysState.ERROR) ∧
    (∀ (now : Nat) (s : SchedState),
        s.sysState = SysState.ERROR → ERROR_RECOVERY_LIMIT ≤ s.errorCount →
        ¬ s.errorStartTime = 0 → s.errorStartTime + ERROR_COOLDOWN_MS < now →
        (handleErrorState now s).manualInterventionReported = true ∧
        (handleErrorState now s).sysState = SysState.ERROR) := by
  refine ⟨?_, ?_, ?_, ?_⟩
  · intro t0 times s0 hstate hstart ht0 hall
    show (runErrorTicks times (handleErrorState t0 s0)).sysState = SysState.ERROR
    rw [handleErrorState_entry t0 s0 hstart]
    rw [runErrorTicks_id times _ t0 rfl ht0 hall]
    exact hstate
  · intro t0 times tr s0 hstate hstart ht0 hcount hall htr
    have h1 : runErrorTicks (t0 :: times) s0
        = { s0 with errorStartTime := t0, errorCount := s0.errorCount + 1 } := by
      show runErrorTicks times (handleErrorState t0 s0) = _
      rw [handleErrorState_entry t0 s0 hstart]
      exact runErrorTicks_id times _ t0 rfl ht0 hall
    rw [h1]
    apply handleErrorState_recover
    · show ¬ t0 = 0
      omega
    · show ERROR_COOLDOWN_MS < tr - t0
      omega
    · show s0.errorCount + 1 < ERROR_RECOVERY_LIMIT
      omega
  · intro times s hs hc
    exact runErrorTicks_stuck times s hs hc
  · intro now s hs hc h0 helapsed
    have hcd : ERROR_COOLDOWN_MS < now - s.errorStartTime := by omega
    have hrec : ¬ s.errorCount < ERROR_RECOVERY_LIMIT := by omega
    simp only [handleErrorState, h0, ite_false, if_pos hcd, if_neg hrec]
    exact ⟨by trivial, hs⟩

/-- Witness for C4 at concrete tick times: entry at 1 with ticks up to
30001 stays in ERROR, a tick at 30002 recovers to INIT with a low error
count, and a saturated counter keeps the scheduler in ERROR and reports
manual intervention after the cooldown. -/
theorem C4_error_cooldown_witness :
    (runErrorTicks [1, 20000, 30001]
        { sysState := SysState.ERROR, errorStartTime := 0, errorCount := 0,
          manualInterventionReported := false }).sysState = SysState.ERROR ∧
    (handleErrorState 30002 (runErrorTicks [1, 20000, 30001]
        { sysState := SysState.ERROR, errorStartTime := 0, errorCount := 0,
          manualInterventionReported := false })).sysState = SysState.INIT ∧
    (runErrorTicks [40000, 80000]
        { sysState := SysState.ERROR, errorStartTime := 100, errorCount := 5,
          manualInterventionReported := false }).sysState = SysState.ERROR ∧
    (handleErrorState 40000
        { sysState := SysState.ERROR, errorStartTime := 100, errorCount := 5,
          manualInterventionReported := false }).manualInterventionReported
      = true := by
  refine ⟨?_, ?_, ?_, ?_⟩
  · exact C4_error_cooldown.1 1 [20000, 30001] _ rfl rfl (by norm_num)
      (by decide)
  · exact C4_error_cooldown.2.1 1 [20000, 30001] 30002 _ rfl rfl (by norm_num)
      (by norm_num [ERROR_RECOVERY_LIMIT]) (by decide)
      (by norm_num [ERROR_COOLDOWN_MS])
  · exact C4_error_cooldown.2.2.1 [40000, 80000] _ rfl
      (by norm_num [ERROR_RECOVERY_LIMIT])
  · exact (C4_error_cooldown.2.2.2 40000 _ rfl
      (by norm_num [ERROR_RECOVERY_LIMIT]) (by norm_num)
      (by norm_num [ERROR_COOLDOWN_MS])).1

/-- C7: if connectivity is lost while the scheduler is UPLOADING part-way
through a batch, the very next `handleUploadingState` tick aborts the
remaining batch without attempting any upload and transitions to
LISTENING; files already uploaded in the batch stay in the uploaded list
and the unattempted remainder stays pending. -/
theorem C7_connectivity_abort :
    ∀ (uploadOk : Nat → Bool) (s : UploadPhase),
      s.sysState = SysState.UPLOADING →
      (handleUploadingState false uploadOk s).sysState = SysState.LISTENING ∧
      (handleUploadingState false uploadOk s).pending = s.pending ∧
      (handleUploadingState false uploadOk s).uploadedFiles = s.uploadedFiles ∧
      (handleUploadingState false uploadOk s).totalUploads = s.totalUploads ∧
      (handleUploadingState false uploadOk s).uploadSessionActive = false := by
  intro ok s _
  cases ha : s.uploadSessionActive <;>
    simp [handleUploadingState, ha]

/-- Witness for C7: a mid-batch session (one file already uploaded, two
still pending) hit by connectivity loss moves to LISTENING with the queue
untouched. -/
theorem C7_connectivity_abort_witness :
    (handleUploadingState false (fun _ => true)
        { sysState := SysState.UPLOADING, uploadSessionActive := true,
          filesUploaded := 1, pending := [2, 3], uploadedFiles := [1],
          totalUploads := 1, errorCount := 0 }).sysState = SysState.LISTENING ∧
    (handleUploadingState false (fun _ => true)
        { sysState := SysState.UPLOADING, uploadSessionActive := true,
          filesUploaded := 1, pending := [2, 3], uploadedFiles := [1],
          totalUploads := 1, errorCount := 0 }).pending = [2, 3] ∧
    (handleUploadingState false (fun _ => true)
        { sysState := SysState.UPLOADING, uploadSessionActive := true,
          filesUploaded := 1, pending := [2, 3], uploadedFiles := [1],
          totalUploads := 1, errorCount := 0 }).uploadedFiles = [1] := by
  have h := C7_connectivity_abort (fun _ => true)
    { sysState := SysState.UPLOADING, uploadSessionActive := true,
      filesUploaded := 1, pending := [2, 3], uploadedFiles := [1],
      totalUploads := 1, errorCount := 0 } rfl
  exact ⟨h.1, h.2.1, h.2.2.1⟩

/-! ## Upload retry lemmas (part_007 `performUpload`) -/

theorem uploadPass_keeps_failed (ok : Nat → Bool) :
    ∀ (files : List Nat) (s : UploadState) (all : Bool) (f : Nat),
      f ∈ s.pending → ok f = false →
      f ∈ (uploadPass ok files s all).1.pending := by
  intro files
  induction files with
  | nil =>
    intro s all f hf _
    exact hf
  | cons g gs ih =>
    intro s all f hf hfail
    unfold uploadPass
    by_cases hg : ok g = true
    · rw [if_pos hg]
      apply ih
      · have hne : f ≠ g := by
          intro h
          rw [h, hg] at hfail
          simp at hfail
        exact (List.mem_erase_of_ne hne).mpr hf
      · exact hfail
    · rw [if_neg hg]
      dsimp only
      split
      · exact hf
      · exact ih _ _ f hf hfail

theorem performUpload_keeps_failed (ok : Nat → Bool) (s : UploadState) (f : Nat)
    (hf : f ∈ s.pending) (hfail : ok f = false) :
    f ∈ (performUpload ok s).1.pending := by
  have h := uploadPass_keeps_failed ok (s.pending.take 10) s true f hf hfail
  unfold performUpload
  by_cases hr : (uploadPass ok (s.pending.take 10) s true).2 = true <;>
    simp [hr] <;> exact h

theorem performUpload_allFail_single (f k : Nat) :
    performUpload (fun _ => false)
        { pending := [f], uploaded := [], retryCount := k }
      = ({ pending := [f], uploaded := [], retryCount := k + 1 }, false) := by
  have hp : uploadPass (fun _ => false) [f]
      { pending := [f], uploaded := [], retryCount := k } true
      = ({ pending := [f], uploaded := [], retryCount := k + 1 }, false) := by
    unfold uploadPass
    dsimp only
    split
    · next h => exact absurd h (by simp)
    · split
      · rfl
      · show uploadPass _ [] _ _ = _
        unfold uploadPass
        rfl
  unfold performUpload
  rw [show ({ pending := [f], uploaded := [], retryCount := k } :
        UploadState).pending.take 10 = [f] from rfl]
  rw [hp]
  rfl

theorem iterFailUpload_single (f : Nat) :
    ∀ n k, iterFailUpload n { pending := [f], uploaded := [], retryCount := k }
      = { pending := [f], uploaded := [], retryCount := k + n } := by
  intro n
  induction n with
  | zero =>
    intro k
    rfl
  | succ n ih =>
    intro k
    show iterFailUpload n (performUpload (fun _ => false)
        { pending := [f], uploaded := [], retryCount := k }).1 = _
    rw [performUpload_allFail_single]
    rw [ih (k + 1)]
    have : k + 1 + n = k + (n + 1) := by omega
    rw [this]

theorem performUpload_success_single (f k : Nat) :
    performUpload (fun _ => true)
        { pending := [f], uploaded := [], retryCount := k }
      = ({ pending := [], uploaded := [f], retryCount := 0 }, true) := by
  have hp : uploadPass (fun _ => true) [f]
      { pending := [f], uploaded := [], retryCount := k } true
      = ({ pending := [], uploaded := [f], retryCount := k }, true) := by
    unfold uploadPass
    dsimp only
    rw [if_pos rfl]
    show uploadPass _ [] _ _ = _
    unfold uploadPass
    simp [List.erase_cons_head]
  unfold performUpload
  rw [show ({ pending := [f], uploaded := [], retryCount := k } :
        UploadState).pending.take 10 = [f] from rfl]
  rw [hp]
  rfl

/-- Counterexample to C2: `performUpload` keeps one retry counter shared by
every file, and a task whose attempt has failed `MAX_UPLOAD_RETRIES = 3`
times is still pending and is attempted again by the next call (the counter
climbs to 4, which is only possible through a fourth attempt) — the task is
never dropped from future consideration, contradicting both the claimed
per-identifier counter and the claimed drop at the ceiling. -/
theorem C2_retry_ceiling_counterexample :
    (iterFailUpload 3 { pending := [7], uploaded := [], retryCount := 0 }).retryCount
        = 3 ∧
    (iterFailUpload 3 { pending := [7], uploaded := [], retryCount := 0 }).pending
        = [7] ∧
    (iterFailUpload 4 { pending := [7], uploaded := [], retryCount := 0 }).retryCount
        = 4 ∧
    (iterFailUpload 4 { pending := [7], uploaded := [], retryCount := 0 }).pending
        = [7] := by
  rw [iterFailUpload_single 7 3 0, iterFailUpload_single 7 4 0]
  exact ⟨rfl, rfl, rfl, rfl⟩

/-- C2 (amended): `attempt` failure increments a single global retry
counter shared across all tasks; when the counter reaches
`MAX_UPLOAD_RETRIES` the current batch is aborted, but the failed task
stays pending and is re-attempted by subsequent `performUpload` calls (a
failing task is never dropped); the counter accumulates across calls and is
reset only by a call in which every attempted upload succeeded; a task that
fails `MAX_UPLOAD_RETRIES - 1` times and then succeeds is marked done
(moved to the uploaded set) and removed from the pending set. -/
theorem C2_retry_ceiling_amended :
    (∀ (ok : Nat → Bool) (s : UploadState) (f : Nat),
        f ∈ s.pending → ok f = false →
        f ∈ (performUpload ok s).1.pending) ∧
    (∀ (f n : Nat),
        iterFailUpload n { pending := [f], uploaded := [], retryCount := 0 }
          = { pending := [f], uploaded := [], retryCount := n }) ∧
    (∀ f : Nat,
        performUpload (fun _ => true)
            (iterFailUpload (MAX_UPLOAD_RETRIES - 1)
              { pending := [f], uploaded := [], retryCount := 0 })
          = ({ pending := [], uploaded := [f], retryCount := 0 }, true)) := by
  refine ⟨performUpload_keeps_failed, ?_, ?_⟩
  · intro f n
    have h := iterFailUpload_single f n 0
    simpa using h
  · intro f
    rw [show MAX_UPLOAD_RETRIES - 1 = 2 from rfl]
    rw [iterFailUpload_single f 2 0]
    have h := performUpload_success_single f (0 + 2)
    simpa using h

/-- Witness for C2 (amended): a concrete failing task stays pending. -/
theorem C2_retry_ceiling_amended_witness :
    7 ∈ (performUpload (fun _ => false)
        { pending := [7], uploaded := [], retryCount := 0 }).1.pending :=
  C2_retry_ceiling_amended.1 (fun _ => false)
    { pending := [7], uploaded := [], retryCount := 0 } 7 (by simp) rfl

/-! ## Recording session lemmas (audio_recorder.cpp and the append loop) -/

theorem appendFrames_recording (frames : List (List Int)) :
    ∀ s : RecorderState, (appendFrames frames s).recording = s.recording := by
  induction frames with
  | nil =>
    intro s
    rfl
  | cons f fs ih =>
    intro s
    show (appendFrames fs (appendFrame f s)).recording = _
    rw [ih]
    rfl

theorem flatten_sampleBytes_length (l : List Int) :
    ((l.map sampleBytes).flatten).length = 2 * l.length := by
  induction l with
  | nil => simp
  | cons a t ih =>
    simp only [List.map_cons, List.flatten_cons, List.length_append, ih,
      List.length_cons, sampleBytes, le16]
    simp
    omega

theorem appendFrames_bytes (frames : List (List Int)) :
    ∀ s : RecorderState, s.bytesWritten < U32 →
      (appendFrames frames s).bytesWritten
        = (s.bytesWritten + 2 * validTotal frames) % U32 := by
  induction frames with
  | nil =>
    intro s hs
    show s.bytesWritten = (s.bytesWritten + 2 * validTotal []) % U32
    rw [show validTotal [] = 0 from rfl, Nat.mul_zero, Nat.add_zero,
      Nat.mod_eq_of_lt hs]
  | cons f fs ih =>
    intro s hs
    show (appendFrames fs (appendFrame f s)).bytesWritten = _
    rw [ih (appendFrame f s) (Nat.mod_lt _ (by norm_num [U32]))]
    show ((s.bytesWritten + 2 * (f.filter isValidSample).length) % U32
        + 2 * validTotal fs) % U32 = _
    rw [Nat.mod_add_mod]
    rw [show validTotal (f :: fs)
        = (f.filter isValidSample).length + validTotal fs from rfl]
    ring_nf

theorem appendFrames_data_length (frames : List (List Int)) :
    ∀ s : RecorderState,
      (appendFrames frames s).fileData.length
        = s.fileData.length + 2 * validTotal frames := by
  induction frames with
  | nil =>
    intro s
    show s.fileData.length = s.fileData.length + 2 * validTotal []
    rw [show validTotal [] = 0 from rfl]
    omega
  | cons f fs ih =>
    intro s
    show (appendFrames fs (appendFrame f s)).fileData.length = _
    rw [ih (appendFrame f s)]
    show (s.fileData ++ ((f.filter isValidSample).map sampleBytes).flatten).length
        + 2 * validTotal fs = _
    rw [List.length_append, flatten_sampleBytes_length]
    rw [show validTotal (f :: fs)
        = (f.filter isValidSample).length + validTotal fs from rfl]
    omega

theorem recordSession_eq (frames : List (List Int)) :
    recordSession frames
      = some { recording := false,
               bytesWritten := (2 * validTotal frames) % U32,
               fileHeader := createWAVHeader ((2 * validTotal frames) % U32),
               fileData := (appendFrames frames
                 { recording := true, bytesWritten := 0,
                   fileHeader := createWAVHeader 0, fileData := [] }).fileData } := by
  have hrec : (appendFrames frames
      { recording := true, bytesWritten := 0,
        fileHeader := createWAVHeader 0, fileData := [] }).recording = true := by
    rw [appendFrames_recording]
  have hbytes : (appendFrames frames
      { recording := true, bytesWritten := 0,
        fileHeader := createWAVHeader 0, fileData := [] }).bytesWritten
      = (2 * validTotal frames) % U32 := by
    rw [appendFrames_bytes frames _ (by norm_num [U32])]
    show (0 + 2 * validTotal frames) % U32 = _
    rw [Nat.zero_add]
  show stopRecording (appendFrames frames _) = _
  unfold stopRecording
  rw [hrec, hbytes]
  rfl

/-- Counterexample to C3: the data-size bookkeeping is 32-bit
(`uint32_t bytesWritten`, `uint32_t` header fields), so a session that
appends `N = 2^31` valid samples wraps: the rewritten header carries a
data-size field of 0, not `N * 2 = 2^32` — the claim's "for every N ≥ 0"
fails at this input. -/
theorem filter_valid_replicate (n : Nat) :
    (List.replicate n (2 : Int)).filter isValidSample = List.replicate n 2 := by
  have h2 : isValidSample 2 = true := by decide
  rw [List.filter_replicate, if_pos h2]

theorem validTotal_single_replicate (n : Nat) :
    validTotal [List.replicate n (2 : Int)] = n := by
  unfold validTotal
  simp only [List.map_cons, List.map_nil, List.sum_cons, List.sum_nil]
  rw [filter_valid_replicate, List.length_replicate]
  omega

theorem recordSession_replicate_header (n : Nat) :
    ∃ s : RecorderState,
      recordSession [List.replicate n (2 : Int)] = some s ∧
      validTotal [List.replicate n 2] = n ∧
      s.fileHeader.subchunk2Size = (2 * n) % U32 := by
  refine ⟨_, recordSession_eq _, validTotal_single_replicate n, ?_⟩
  simp only [createWAVHeader]
  rw [validTotal_single_replicate n]
  exact Nat.mod_mod_of_dvd _ dvd_rfl

theorem C3_header_counterexample :
    ∃ s : RecorderState,
      recordSession [List.replicate 2147483648 2] = some s ∧
      validTotal [List.replicate 2147483648 2] = 2147483648 ∧
      s.fileHeader.subchunk2Size = 0 ∧
      ¬ s.fileHeader.subchunk2Size
          = 2 * validTotal [List.replicate 2147483648 2] := by
  obtain ⟨s, hses, hvt, hsub⟩ := recordSession_replicate_header 2147483648
  refine ⟨s, hses, hvt, ?_, ?_⟩
  · rw [hsub]
    norm_num [U32]
  · rw [hsub, hvt]
    norm_num [U32]

/-- C3 (amended): for every N with `36 + 2N < 2^32` (so that the byte count
fits the 32-bit header fields), a `start -> append(N valid samples) ->
finish` session leaves a 44-byte header whose data-size field is `N * 2`,
whose total chunk size is `36 + N * 2`, with `audioFormat = 1` (PCM),
`subchunk1Size = 16`, `byteRate = sampleRate * channels * 2`,
`blockAlign = channels * 2`, `bitsPerSample = 16`; `finish` rewrites the
placeholder header with the true byte count of the data actually written
(the data-size field equals the number of data bytes in the file). -/
theorem C3_header_round_trip :
    ∀ frames : List (List Int),
      36 + 2 * validTotal frames < U32 →
      ∃ s : RecorderState, recordSession frames = some s ∧
        s.recording = false ∧
        s.fileHeader.subchunk2Size = 2 * validTotal frames ∧
        s.fileHeader.chunkSize = 36 + 2 * validTotal frames ∧
        s.fileHeader.audioFormat = 1 ∧
        s.fileHeader.subchunk1Size = 16 ∧
        s.fileHeader.numChannels = CHANNELS ∧
        s.fileHeader.sampleRate = SAMPLE_RATE ∧
        s.fileHeader.byteRate = SAMPLE_RATE * CHANNELS * 2 ∧
        s.fileHeader.blockAlign = CHANNELS * 2 ∧
        s.fileHeader.bitsPerSample = 16 ∧
        (headerBytes s.fileHeader).length = 44 ∧
        s.fileData.length = 2 * validTotal frames ∧
        s.fileHeader.subchunk2Size = s.fileData.length := by
  intro frames hbound
  have hmod : (2 * validTotal frames) % U32 = 2 * validTotal frames :=
    Nat.mod_eq_of_lt (by omega)
  have hsub2 : (createWAVHeader ((2 * validTotal frames) % U32)).subchunk2Size
      = 2 * validTotal frames := by
    show ((2 * validTotal frames) % U32) % U32 = _
    rw [hmod, hmod]
  have hdata : (appendFrames frames
      { recording := true, bytesWritten := 0,
        fileHeader := createWAVHeader 0, fileData := [] }).fileData.length
      = 2 * validTotal frames := by
    rw [appendFrames_data_length]
    show ([] : List Nat).length + 2 * validTotal frames = _
    simp
  refine ⟨_, recordSession_eq frames, rfl, hsub2, ?_, rfl, rfl, rfl, rfl, rfl,
    rfl, rfl, ?_, hdata, ?_⟩
  · show (36 + (2 * validTotal frames) % U32) % U32 = _
    rw [hmod, Nat.mod_eq_of_lt hbound]
  · show (headerBytes (createWAVHeader ((2 * validTotal frames) % U32))).length = 44
    simp [headerBytes, createWAVHeader, le16, le32]
  · show (createWAVHeader ((2 * validTotal frames) % U32)).subchunk2Size
        = (appendFrames frames _).fileData.length
    rw [hsub2, hdata]

/-- Witness for C3 (amended): a short concrete session — two frames whose
valid samples number 3 in total (sentinels excluded) — produces data size 6
and chunk size 42. -/
theorem C3_header_round_trip_witness :
    ∃ s : RecorderState,
      recordSession [[100, 0, -200], [1, -1, 300]] = some s ∧
      s.fileHeader.subchunk2Size = 2 * validTotal [[100, 0, -200], [1, -1, 300]] ∧
      s.fileHeader.chunkSize = 36 + 2 * validTotal [[100, 0, -200], [1, -1, 300]] := by
  obtain ⟨s, hses, _, hsub, hchunk, _⟩ :=
    C3_header_round_trip [[100, 0, -200], [1, -1, 300]] (by decide)
  exact ⟨s, hses, hsub, hchunk⟩

end EchoLog
